import Mathlib

/-!
# Verification of the prompt-generator pipeline (`generate_prompts.go`)

A shallow embedding of the data-generation and sampling pipeline of
`generate_prompts.go`: the city fetch loop, the unique-person generator,
the sampling helpers, and the per-template selection logic of `main`.

Randomness is modelled by explicit parameters: each call site of
`rand.Intn(n)` receives a natural number `r` drawn from an abstract stream
and the value used is `r % n` (Go's `Intn` returns a value in `[0, n)`),
and `rand.Shuffle` of an index list is modelled by quantifying over an
arbitrary permutation of that list (its contract). The faker name source
and the HTTP city endpoint are modelled as attempt-indexed oracles.
-/

namespace GeneratePrompts

/-- Configuration constant `MIN_AGE = 18` from the `const` block. -/
def MIN_AGE : Nat := 18

/-- Configuration constant `MAX_AGE = 90` from the `const` block. -/
def MAX_AGE : Nat := 90

/-- The hard-coded `predefinedJobTitles` slice, transcribed verbatim. -/
def predefinedJobTitles : List String := [
  "Software Engineer", "Project Manager", "Data Scientist", "Product Manager", "Accountant",
  "Graphic Designer", "Marketing Manager", "Sales Representative", "Customer Service Representative",
  "Human Resources Manager", "Teacher", "Nurse", "Doctor", "Lawyer", "Chef", "Mechanic",
  "Electrician", "Plumber", "Consultant", "Analyst", "Administrator", "Receptionist",
  "Web Developer", "UX Designer", "System Administrator", "DevOps Engineer", "Business Analyst",
  "Financial Advisor", "Architect", "Civil Engineer", "Mechanical Engineer", "Artist", "Writer",
  "Editor", "Photographer", "Scientist", "Researcher", "Librarian", "Police Officer", "Firefighter"]

/-- The `PersonEntry` struct: one synthetic person record.  Go's `int` age
is modelled as `Int`. -/
structure PersonEntry where
  Name : String
  Age : Int
  City : String
  JobTitle : String
deriving DecidableEq, Repr

instance : Inhabited PersonEntry := ⟨⟨"", 0, "", ""⟩⟩

/-- `randomSampleNames(names, k)`: Go clamps `k` into `[0, n]`, builds the
index list `[0, …, n-1]`, shuffles it, and keeps the names at the first
`k` shuffled indices.  The shuffled index list is passed explicitly as
`indices`; theorems assume it is a permutation of `List.range n`. -/
def randomSampleNames (names : List String) (k : Int) (indices : List Nat) : List String :=
  let n := names.length
  let k1 : Int := if k < 0 then 0 else k
  let k2 : Int := if k1 > (n : Int) then (n : Int) else k1
  (indices.take k2.toNat).map (fun i => names.getD i "")

/-- `randomSampleEntries(entries, k)`: identical to `randomSampleNames`
but over `PersonEntry` values. -/
def randomSampleEntries (entries : List PersonEntry) (k : Int) (indices : List Nat) :
    List PersonEntry :=
  let n := entries.length
  let k1 : Int := if k < 0 then 0 else k
  let k2 : Int := if k1 > (n : Int) then (n : Int) else k1
  (indices.take k2.toNat).map (fun i => entries.getD i default)

/-- Outcome of one HTTP attempt in `fetchCitiesFromAPI`: transport error,
non-OK status, JSON decode error, or a decoded `CityAPIResponse` whose
`city` field is `city` (possibly the empty string). -/
inductive ApiResult where
  | transportError
  | badStatus
  | decodeError
  | ok (city : String)
deriving DecidableEq, Repr

/-- The attempt loop of `fetchCitiesFromAPI`.  Go iterates
`for i := 0; i < numToFetch && len(seenCities) < targetUnique; i++`;
`fuel` is the remaining number of allowed attempts (`numToFetch - i`) and
`i` the attempt counter used to index the response oracle `resp`.  Only a
decoded, non-empty, not-yet-seen city name is appended (Go's `seenCities`
set always holds exactly the members of `cities`, so membership in
`cities` models it).  Returns the collected cities and the number of
attempts performed. -/
def fetchLoop (resp : Nat → ApiResult) (targetUnique : Nat) :
    Nat → Nat → List String → List String × Nat
  | 0, i, cities => (cities, i)
  | fuel + 1, i, cities =>
    if cities.length < targetUnique then
      match resp i with
      | .ok city =>
        if city ≠ "" ∧ city ∉ cities then
          fetchLoop resp targetUnique fuel (i + 1) (cities ++ [city])
        else
          fetchLoop resp targetUnique fuel (i + 1) cities
      | _ => fetchLoop resp targetUnique fuel (i + 1) cities
    else (cities, i)

/-- `fetchCitiesFromAPI(numToFetch, targetUnique)`: run the attempt loop
and fail iff zero cities were collected. -/
def fetchCitiesFromAPI (numToFetch targetUnique : Nat) (resp : Nat → ApiResult) :
    Except String (List String) :=
  let cities := (fetchLoop resp targetUnique numToFetch 0 []).1
  if cities.length = 0 then
    .error "failed to fetch any valid cities"
  else
    .ok cities

/-- The generation loop of `generateRandomData`.  Go iterates
`for len(data) < numEntries && attempts < maxAttempts` with
`maxAttempts = numEntries * 5`; `fuel` is `maxAttempts - attempts` and
`attempts` indexes the random oracles.  `fake` models
`faker.FakeData(&nameH)` (`none` = error, skipped); `ageR`, `cityR` and
`jobR` model the three `rand.Intn` draws of an accepted attempt, with
`rand.Intn n` realised as `r % n`. -/
def genLoop (numEntries : Nat) (availableCities : List String)
    (fake : Nat → Option (String × String)) (ageR cityR jobR : Nat → Nat) :
    Nat → Nat → List PersonEntry → List String → List PersonEntry
  | 0, _, data, _ => data
  | fuel + 1, attempts, data, usedNames =>
    if data.length < numEntries then
      let attempts' := attempts + 1
      match fake attempts' with
      | none => genLoop numEntries availableCities fake ageR cityR jobR fuel attempts' data usedNames
      | some (firstName, lastName) =>
        let name := firstName ++ " " ++ lastName
        if name ∈ usedNames then
          genLoop numEntries availableCities fake ageR cityR jobR fuel attempts' data usedNames
        else
          let age : Int := (ageR attempts' % (MAX_AGE - MIN_AGE + 1) : Nat) + (MIN_AGE : Int)
          let city := availableCities.getD (cityR attempts' % availableCities.length) ""
          let jobTitle := predefinedJobTitles.getD (jobR attempts' % predefinedJobTitles.length) ""
          genLoop numEntries availableCities fake ageR cityR jobR fuel attempts'
            (data ++ [⟨name, age, city, jobTitle⟩]) (name :: usedNames)
    else data

/-- `generateRandomData(numEntries, availableCities)`: reject an empty
city pool or job catalog, run the bounded generation loop starting from
`attempts = 0`, then shuffle the result in place.  `shuffle` models
`rand.Shuffle`; theorems assume `∀ l, (shuffle l).Perm l`. -/
def generateRandomData (numEntries : Nat) (availableCities : List String)
    (fake : Nat → Option (String × String)) (ageR cityR jobR : Nat → Nat)
    (shuffle : List PersonEntry → List PersonEntry) : Except String (List PersonEntry) :=
  if availableCities.length = 0 then
    .error "cannot generate data without any available cities"
  else if predefinedJobTitles.length = 0 then
    .error "predefined job titles list is empty"
  else
    .ok (shuffle (genLoop numEntries availableCities fake ageR cityR jobR
      (numEntries * 5) 0 [] []))

/-- The `PromptConfig` struct (template text omitted: the claims concern
only the selection logic). -/
structure PromptConfig where
  Desc : String := ""
  QueryCount : Int := 0
  QueryIndices : List Int := []
  IsSequential : Bool := false
  NonExistentName : String := ""
  IsReverseLookup : Bool := false
  IsCombinedRequest : Bool := false
  IsConfirmation : Bool := false
  IsMultiCity : Bool := false
  IsMultiJob : Bool := false
  IsMultiAgeCity : Bool := false
  IsMultiCount : Bool := false
deriving DecidableEq, Repr

/-- `minRequiredData` as computed in the fixed-count branch of `main`:
start from `config.QueryCount`, overridden to 2 for reverse-lookup and to
3 for combined-request. -/
def minRequiredData (config : PromptConfig) : Int :=
  let m := config.QueryCount
  let m := if config.IsReverseLookup then 2 else m
  let m := if config.IsCombinedRequest then 3 else m
  m

/-- The fixed-count branch of `main`'s populate block
(`if config.QueryCount > 0`): skip the template (`none`, Go's
`canGenerate = false`) when `len(masterData) < minRequiredData`;
otherwise sample `QueryCount` names from `allNames` (the name column of
`masterData`).  `indices` is the shuffled index list consumed by
`randomSampleNames`. -/
def fixedCountSelection (config : PromptConfig) (masterData : List PersonEntry)
    (indices : List Nat) : Option (List String) :=
  if config.QueryCount > 0 then
    if (masterData.length : Int) < minRequiredData config then
      none
    else
      some (randomSampleNames (masterData.map PersonEntry.Name) config.QueryCount indices)
  else
    none

/-- The sequential branch of `main`'s populate block
(`config.IsSequential`): skip when fewer than 5 entries, else use start
offset `rand.Intn(len(masterData)-4)` (modelled `r % (len - 4)`) and
expose the names at the 5 contiguous positions from it, in order. -/
def sequentialSelection (masterData : List PersonEntry) (r : Nat) : Option (Nat × List String) :=
  if masterData.length < 5 then
    none
  else
    let startIndex := r % (masterData.length - 4)
    some (startIndex,
      (List.range 5).map (fun i => (masterData.getD (startIndex + i) default).Name))

/-- The `IsMultiCity` branch: `TargetCity` is the city of one random
entry (`masterData[rand.Intn(len(masterData))].City`). -/
def multiCitySelection (masterData : List PersonEntry) (r : Nat) : Option String :=
  if masterData.length = 0 then none
  else some (masterData.getD (r % masterData.length) default).City

/-- The `IsMultiJob` branch: `TargetJobTitle` is the job title of one
random entry. -/
def multiJobSelection (masterData : List PersonEntry) (r : Nat) : Option String :=
  if masterData.length = 0 then none
  else some (masterData.getD (r % masterData.length) default).JobTitle

/-- The age-window computation of the `IsMultiAgeCity` branch: `±5`
around `midAge`, lower bound clamped up to `MIN_AGE`, upper bound clamped
down to `MAX_AGE`, and finally the lower bound capped at the upper bound
if they crossed. -/
def ageWindow (midAge : Int) : Int × Int :=
  let minAgeQuery := midAge - 5
  let maxAgeQuery := midAge + 5
  let minAgeQuery := if minAgeQuery < (MIN_AGE : Int) then (MIN_AGE : Int) else minAgeQuery
  let maxAgeQuery := if maxAgeQuery > (MAX_AGE : Int) then (MAX_AGE : Int) else maxAgeQuery
  let minAgeQuery := if minAgeQuery > maxAgeQuery then maxAgeQuery else minAgeQuery
  (minAgeQuery, maxAgeQuery)

/-- The age-window computation without the final crossing cap, used to
state that the cap is unreachable for in-range ages. -/
def ageWindowUncapped (midAge : Int) : Int × Int :=
  let minAgeQuery := midAge - 5
  let maxAgeQuery := midAge + 5
  let minAgeQuery := if minAgeQuery < (MIN_AGE : Int) then (MIN_AGE : Int) else minAgeQuery
  let maxAgeQuery := if maxAgeQuery > (MAX_AGE : Int) then (MAX_AGE : Int) else maxAgeQuery
  (minAgeQuery, maxAgeQuery)

/-- The `IsMultiAgeCity` branch: `TargetCity` comes from the entry at
random index `r1` and the age window from the age of the entry at the
independently drawn random index `r2` (two separate
`rand.Intn(len(masterData))` calls in the source). -/
def multiAgeCitySelection (masterData : List PersonEntry) (r1 r2 : Nat) :
    Option (String × Int × Int) :=
  if masterData.length = 0 then none
  else
    let targetCity := (masterData.getD (r1 % masterData.length) default).City
    let midAge := (masterData.getD (r2 % masterData.length) default).Age
    some (targetCity, ageWindow midAge)

/-- The `IsMultiCount` branch: `TargetJobTitle` from the entry at random
index `r1`, `TargetCity` from the entry at the independently drawn random
index `r2` (two separate `rand.Intn(len(masterData))` calls). -/
def multiCountSelection (masterData : List PersonEntry) (r1 r2 : Nat) :
    Option (String × String) :=
  if masterData.length = 0 then none
  else
    some ((masterData.getD (r1 % masterData.length) default).JobTitle,
      (masterData.getD (r2 % masterData.length) default).City)

/-! ### Helper lemmas -/

theorem map_getD_range {α : Type} (l : List α) (d : α) :
    (List.range l.length).map (fun i => l.getD i d) = l := by
  apply List.ext_getElem
  · simp
  · intro i h1 h2
    simp only [List.getElem_map, List.getElem_range]
    exact List.getD_eq_getElem _ _ h2

theorem ageWindow_props (midAge : Int) (h1 : (MIN_AGE : Int) ≤ midAge)
    (h2 : midAge ≤ (MAX_AGE : Int)) :
    (MIN_AGE : Int) ≤ (ageWindow midAge).1 ∧ (ageWindow midAge).1 ≤ midAge ∧
      midAge ≤ (ageWindow midAge).2 ∧ (ageWindow midAge).2 ≤ (MAX_AGE : Int) ∧
      ageWindow midAge = ageWindowUncapped midAge := by
  simp only [ageWindow, ageWindowUncapped, MIN_AGE, MAX_AGE] at h1 h2 ⊢
  refine ⟨?_, ?_, ?_, ?_, ?_⟩ <;> split_ifs <;> first | rfl | omega

/-- For an in-range start offset, reading the 5 names at positions
`s, s+1, …, s+4` via `getD` is reading the name column of the contiguous
block `(l.drop s).take 5`. -/
theorem map_getD_contiguous (l : List PersonEntry) (s : Nat) (h : s + 5 ≤ l.length) :
    (List.range 5).map (fun i => (l.getD (s + i) default).Name) =
      ((l.drop s).take 5).map PersonEntry.Name := by
  apply List.ext_getElem
  · simp
    omega
  · intro i h1 h2
    simp only [List.getElem_map, List.getElem_range, List.getElem_take, List.getElem_drop]
    rw [List.getD_eq_getElem]

/-! ### C3: size of the job title catalog -/

/-- C3 (counterexample): the claim says the hard-coded job title catalog
has exactly 39 entries; it does not. -/
theorem predefinedJobTitles_length_ne_39 : predefinedJobTitles.length ≠ 39 := by decide

/-- C3 (amended): the hard-coded `predefinedJobTitles` catalog contains
exactly 40 entries. -/
theorem predefinedJobTitles_length_eq_40 : predefinedJobTitles.length = 40 := by rfl

/-! ### C10: the age+city filter's age window -/

/-- C10: when the randomly chosen entry's age `midAge` lies in
`[MIN_AGE, MAX_AGE] = [18, 90]`, the age window of the age+city-filter
template satisfies `18 ≤ MinAge ≤ MaxAge ≤ 90`, contains `midAge`, and
coincides with the computation without the final lower-bound cap: the
crossing-cap branch is unreachable under this precondition. -/
theorem ageWindow_sound (midAge : Int) (h1 : (MIN_AGE : Int) ≤ midAge)
    (h2 : midAge ≤ (MAX_AGE : Int)) :
    (MIN_AGE : Int) ≤ (ageWindow midAge).1 ∧
      (ageWindow midAge).1 ≤ (ageWindow midAge).2 ∧
      (ageWindow midAge).2 ≤ (MAX_AGE : Int) ∧
      (ageWindow midAge).1 ≤ midAge ∧ midAge ≤ (ageWindow midAge).2 ∧
      ageWindow midAge = ageWindowUncapped midAge := by
  obtain ⟨a, b, c, d, e⟩ := ageWindow_props midAge h1 h2
  exact ⟨a, le_trans b c, d, b, c, e⟩

/-- C10 (witness): instantiation at `midAge = 20`. -/
theorem ageWindow_sound_witness :
    (MIN_AGE : Int) ≤ 20 ∧ (20 : Int) ≤ (MAX_AGE : Int) ∧
      ((MIN_AGE : Int) ≤ (ageWindow 20).1 ∧
        (ageWindow 20).1 ≤ (ageWindow 20).2 ∧
        (ageWindow 20).2 ≤ (MAX_AGE : Int) ∧
        (ageWindow 20).1 ≤ 20 ∧ (20 : Int) ≤ (ageWindow 20).2 ∧
        ageWindow 20 = ageWindowUncapped 20) :=
  ⟨by decide, by decide, ageWindow_sound 20 (by decide) (by decide)⟩

/-! ### C9: the sequential-run template -/

/-- C9: with fewer than 5 entries the sequential-run template is skipped;
with at least 5 entries the start offset `r % (len - 4)` lies in
`[0, len - 5]`, the exposed names are exactly, in order, the name column
of the 5 contiguous dataset positions beginning at that offset, and every
offset in the valid range is attained by some random draw (the draw `t`
itself). -/
theorem sequentialSelection_spec (masterData : List PersonEntry) (r : Nat) :
    (masterData.length < 5 → sequentialSelection masterData r = none) ∧
    (5 ≤ masterData.length →
      r % (masterData.length - 4) + 5 ≤ masterData.length ∧
      sequentialSelection masterData r = some (r % (masterData.length - 4),
        ((masterData.drop (r % (masterData.length - 4))).take 5).map PersonEntry.Name) ∧
      (∀ t, t + 5 ≤ masterData.length → sequentialSelection masterData t = some (t,
        ((masterData.drop t).take 5).map PersonEntry.Name))) := by
  constructor
  · intro h
    simp [sequentialSelection, h]
  · intro h
    have hpos : 0 < masterData.length - 4 := by omega
    have hmod : r % (masterData.length - 4) < masterData.length - 4 := Nat.mod_lt _ hpos
    refine ⟨by omega, ?_, ?_⟩
    · rw [sequentialSelection, if_neg (by omega)]
      dsimp only
      rw [map_getD_contiguous masterData _ (by omega)]
    · intro t ht
      have htmod : t % (masterData.length - 4) = t := Nat.mod_eq_of_lt (by omega)
      rw [sequentialSelection, if_neg (by omega), htmod]
      dsimp only
      rw [map_getD_contiguous masterData _ (by omega)]

/-- Concrete six-entry dataset used by witnesses. -/
def sixEntries : List PersonEntry :=
  [⟨"N0", 20, "Paris", "Nurse"⟩, ⟨"N1", 25, "Rome", "Chef"⟩, ⟨"N2", 30, "Oslo", "Doctor"⟩,
   ⟨"N3", 35, "Lima", "Artist"⟩, ⟨"N4", 40, "Kyiv", "Writer"⟩, ⟨"N5", 45, "Bern", "Lawyer"⟩]

/-- C9 (witness): on the six-entry dataset with draw `r = 7`, the start
offset is `7 % 2 = 1` and the names are those at positions 1–5. -/
theorem sequentialSelection_spec_witness :
    sequentialSelection sixEntries 7 = some (1, ["N1", "N2", "N3", "N4", "N5"]) := by
  have h := ((sequentialSelection_spec sixEntries 7).2 (by decide)).2.1
  simpa [sixEntries] using h

/-! ### C4: the samplers -/

/-- Closed form of `randomSampleNames`: the two `if` clamps compute
`min k.toNat (names.length)` as the number of shuffled indices kept. -/
theorem randomSampleNames_eq (names : List String) (k : Int) (indices : List Nat) :
    randomSampleNames names k indices =
      (indices.take (min k.toNat names.length)).map (fun i => names.getD i "") := by
  simp only [randomSampleNames]
  split_ifs <;> congr 2 <;> omega

/-- Closed form of `randomSampleEntries`, as for `randomSampleNames`. -/
theorem randomSampleEntries_eq (entries : List PersonEntry) (k : Int) (indices : List Nat) :
    randomSampleEntries entries k indices =
      (indices.take (min k.toNat entries.length)).map (fun i => entries.getD i default) := by
  simp only [randomSampleEntries]
  split_ifs <;> congr 2 <;> omega

theorem randomSampleNames_length (names : List String) (k : Int) (indices : List Nat)
    (hperm : indices.Perm (List.range names.length)) :
    (randomSampleNames names k indices).length = min k.toNat names.length := by
  have hlen : indices.length = names.length := by simpa using hperm.length_eq
  rw [randomSampleNames_eq]
  simp [hlen]

theorem randomSampleEntries_length (entries : List PersonEntry) (k : Int) (indices : List Nat)
    (hperm : indices.Perm (List.range entries.length)) :
    (randomSampleEntries entries k indices).length = min k.toNat entries.length := by
  have hlen : indices.length = entries.length := by simpa using hperm.length_eq
  rw [randomSampleEntries_eq]
  simp [hlen]

/-- C4: on any permutation `idxN`/`idxE` of the respective index range,
both samplers return `clamp(k, 0, len(pool))` elements read at pairwise
distinct in-range positions, a non-positive `k` behaves exactly like
`k = 0` (empty result), and `k ≥ len(pool)` yields a permutation of the
whole pool; no failure path exists. -/
theorem randomSample_spec (names : List String) (entries : List PersonEntry) (k : Int)
    (idxN idxE : List Nat)
    (hN : idxN.Perm (List.range names.length))
    (hE : idxE.Perm (List.range entries.length)) :
    ((randomSampleNames names k idxN).length = min k.toNat names.length ∧
      (randomSampleEntries entries k idxE).length = min k.toNat entries.length) ∧
    ((∃ pos : List Nat, pos.Nodup ∧ (∀ p ∈ pos, p < names.length) ∧
        randomSampleNames names k idxN = pos.map (fun i => names.getD i "")) ∧
      (∃ pos : List Nat, pos.Nodup ∧ (∀ p ∈ pos, p < entries.length) ∧
        randomSampleEntries entries k idxE = pos.map (fun i => entries.getD i default))) ∧
    (k ≤ 0 →
      randomSampleNames names k idxN = randomSampleNames names 0 idxN ∧
      randomSampleNames names k idxN = [] ∧
      randomSampleEntries entries k idxE = randomSampleEntries entries 0 idxE ∧
      randomSampleEntries entries k idxE = []) ∧
    ((names.length : Int) ≤ k → (randomSampleNames names k idxN).Perm names) ∧
    ((entries.length : Int) ≤ k → (randomSampleEntries entries k idxE).Perm entries) := by
  have hNlen : idxN.length = names.length := by simpa using hN.length_eq
  have hElen : idxE.length = entries.length := by simpa using hE.length_eq
  have hNnd : idxN.Nodup := hN.nodup_iff.mpr (List.nodup_range _)
  have hEnd : idxE.Nodup := hE.nodup_iff.mpr (List.nodup_range _)
  refine ⟨⟨randomSampleNames_length names k idxN hN, randomSampleEntries_length entries k idxE hE⟩,
    ⟨⟨idxN.take (min k.toNat names.length), ?_, ?_, randomSampleNames_eq names k idxN⟩,
      ⟨idxE.take (min k.toNat entries.length), ?_, ?_, randomSampleEntries_eq entries k idxE⟩⟩,
    ?_, ?_, ?_⟩
  · exact hNnd.sublist (List.take_sublist _ _)
  · intro p hp
    have hpm : p ∈ idxN := (List.take_sublist _ _).mem hp
    simpa using (hN.mem_iff.mp hpm)
  · exact hEnd.sublist (List.take_sublist _ _)
  · intro p hp
    have hpm : p ∈ idxE := (List.take_sublist _ _).mem hp
    simpa using (hE.mem_iff.mp hpm)
  · intro hk
    have hk0 : k.toNat = 0 := by omega
    refine ⟨?_, ?_, ?_, ?_⟩ <;>
      simp [randomSampleNames_eq, randomSampleEntries_eq, hk0]
  · intro hk
    have htake : min k.toNat names.length = idxN.length := by omega
    rw [randomSampleNames_eq, htake, List.take_length]
    have h1 : (idxN.map (fun i => names.getD i "")).Perm
        ((List.range names.length).map (fun i => names.getD i "")) := hN.map _
    rwa [map_getD_range names ""] at h1
  · intro hk
    have htake : min k.toNat entries.length = idxE.length := by omega
    rw [randomSampleEntries_eq, htake, List.take_length]
    have h1 : (idxE.map (fun i => entries.getD i default)).Perm
        ((List.range entries.length).map (fun i => entries.getD i default)) := hE.map _
    rwa [map_getD_range entries default] at h1

/-- C4 (witness): sampling 2 of 3 names with the concrete shuffled index
list `[2, 0, 1]` returns exactly 2 names, and asking for `k = 5 ≥ 3`
entries returns a permutation of the whole pool. -/
theorem randomSample_spec_witness :
    (randomSampleNames ["a", "b", "c"] 2 [2, 0, 1]).length = 2 ∧
      (randomSampleEntries sixEntries.tail.tail.tail 5 [1, 2, 0]).Perm
        sixEntries.tail.tail.tail := by
  constructor
  · have h := (randomSample_spec ["a", "b", "c"] sixEntries.tail.tail.tail 2 [2, 0, 1] [1, 2, 0]
      (by decide) (by decide)).1.1
    simpa using h
  · exact (randomSample_spec ["a", "b", "c"] sixEntries.tail.tail.tail 5 [2, 0, 1] [1, 2, 0]
      (by decide) (by decide)).2.2.2.2 (by decide)

/-! ### C1: filter templates and guaranteed matches -/

/-- Concrete two-entry dataset whose city/age and job/city combinations
separate the independent random draws of the filter templates. -/
def twoEntries : List PersonEntry :=
  [⟨"Ann Lee", 18, "Paris", "Nurse"⟩, ⟨"Bo Kim", 90, "Rome", "Chef"⟩]

/-- An element read at a position reduced modulo the length of a
non-empty list is a member of the list. -/
theorem getD_mod_mem {α : Type} [Inhabited α] (l : List α) (r : Nat) (h : l.length ≠ 0) :
    l.getD (r % l.length) default ∈ l := by
  have hlt : r % l.length < l.length := Nat.mod_lt _ (by omega)
  rw [List.getD_eq_getElem _ _ hlt]
  exact List.getElem_mem _

/-- C1 (counterexample): in the age+city-filter template the target city
and the age-window centre come from two independent random draws
(`r1 = 0`, `r2 = 1`), so no entry of `twoEntries` lies in `'Paris'` with
age in `[85, 90]`; likewise the count-filter's job and city draws
(`'Nurse'` and `'Rome'`) are jointly matched by no entry. -/
theorem filterSelection_joint_match_cex :
    multiAgeCitySelection twoEntries 0 1 = some ("Paris", 85, 90) ∧
    (¬ ∃ e ∈ twoEntries, e.City = "Paris" ∧ 85 ≤ e.Age ∧ e.Age ≤ 90) ∧
    multiCountSelection twoEntries 0 1 = some ("Nurse", "Rome") ∧
    (¬ ∃ e ∈ twoEntries, e.JobTitle = "Nurse" ∧ e.City = "Rome") := by decide

/-- C1 (amended): the city-filter and job-filter templates derive their
single filter value from one randomly chosen entry, so at least one entry
matches it; the age+city-filter and count-filter templates derive each of
their two filter values from an independently chosen random entry, so
each criterion taken individually is satisfied by at least one entry (but
not necessarily both by the same entry). -/
theorem filterSelection_per_criterion (masterData : List PersonEntry) (r r1 r2 : Nat)
    (hne : masterData.length ≠ 0)
    (hage : ∀ e ∈ masterData, (MIN_AGE : Int) ≤ e.Age ∧ e.Age ≤ (MAX_AGE : Int)) :
    (∃ city, multiCitySelection masterData r = some city ∧
      ∃ e ∈ masterData, e.City = city) ∧
    (∃ job, multiJobSelection masterData r = some job ∧
      ∃ e ∈ masterData, e.JobTitle = job) ∧
    (∃ city lo hi, multiAgeCitySelection masterData r1 r2 = some (city, lo, hi) ∧
      (∃ e ∈ masterData, e.City = city) ∧
      (∃ e ∈ masterData, lo ≤ e.Age ∧ e.Age ≤ hi)) ∧
    (∃ job city, multiCountSelection masterData r1 r2 = some (job, city) ∧
      (∃ e ∈ masterData, e.JobTitle = job) ∧ (∃ e ∈ masterData, e.City = city)) := by
  have hmem : ∀ s : Nat, masterData.getD (s % masterData.length) default ∈ masterData :=
    fun s => getD_mod_mem masterData s hne
  refine ⟨⟨_, ?_, masterData.getD (r % masterData.length) default, hmem r, rfl⟩,
    ⟨_, ?_, masterData.getD (r % masterData.length) default, hmem r, rfl⟩, ?_, ?_⟩
  · rw [multiCitySelection, if_neg hne]
  · rw [multiJobSelection, if_neg hne]
  · set mid := masterData.getD (r2 % masterData.length) default with hmid
    have hmidrange := hage mid (hmem r2)
    have hwin := ageWindow_props mid.Age hmidrange.1 hmidrange.2
    refine ⟨(masterData.getD (r1 % masterData.length) default).City,
      (ageWindow mid.Age).1, (ageWindow mid.Age).2, ?_,
      ⟨_, hmem r1, rfl⟩, mid, hmem r2, hwin.2.1, hwin.2.2.1⟩
    rw [multiAgeCitySelection, if_neg hne]
  · refine ⟨(masterData.getD (r1 % masterData.length) default).JobTitle,
      (masterData.getD (r2 % masterData.length) default).City, ?_,
      ⟨_, hmem r1, rfl⟩, ⟨_, hmem r2, rfl⟩⟩
    rw [multiCountSelection, if_neg hne]

/-- C1 (witness): instantiation on `twoEntries` with draws 0 and 1. -/
theorem filterSelection_per_criterion_witness :
    ∃ city, multiCitySelection twoEntries 0 = some city ∧
      ∃ e ∈ twoEntries, e.City = city :=
  (filterSelection_per_criterion twoEntries 0 0 1 (by decide) (by decide)).1

/-! ### C2: undersized datasets and fixed-count templates -/

/-- The `PromptConfig` of template `04_more_items_15` (`QueryCount = 15`,
no special flags). -/
def config04 : PromptConfig :=
  ⟨"04_more_items_15", 15, [], false, "", false, false, false, false, false, false, false⟩

/-- C2 (counterexample): on a 2-entry dataset, template `04_more_items_15`
(required count 15) is skipped — the selection is `none`, not a shrunken
name list. -/
theorem fixedCountSelection_skip_cex :
    (twoEntries.length : Int) < minRequiredData config04 ∧
    fixedCountSelection config04 twoEntries [0, 1] = none := by decide

/-- C2 (amended): a fixed-count template whose dataset is smaller than
its required count (2 for reverse-lookup, 3 for combined-request, the
query count otherwise) is skipped and produces nothing; whenever the
required count is met, the sampled name list has
`min(queryCount, len(dataset))` entries, so it silently shrinks below the
query count only when the dataset is at least the required count but
smaller than the query count (reachable only for the reverse-lookup and
combined-request sub-variants, whose required counts are below their
query counts). -/
theorem fixedCountSelection_spec (config : PromptConfig) (masterData : List PersonEntry)
    (indices : List Nat) (hq : 0 < config.QueryCount)
    (hperm : indices.Perm (List.range masterData.length)) :
    ((masterData.length : Int) < minRequiredData config →
      fixedCountSelection config masterData indices = none) ∧
    (minRequiredData config ≤ (masterData.length : Int) →
      ∃ names, fixedCountSelection config masterData indices = some names ∧
        names.length = min config.QueryCount.toNat masterData.length) := by
  constructor
  · intro h
    rw [fixedCountSelection, if_pos hq, if_pos h]
  · intro h
    refine ⟨randomSampleNames (masterData.map PersonEntry.Name) config.QueryCount indices,
      ?_, ?_⟩
    · rw [fixedCountSelection, if_pos hq, if_neg (by omega)]
    · have hlen := randomSampleNames_length (masterData.map PersonEntry.Name)
        config.QueryCount indices (by simpa using hperm)
      simpa using hlen

/-- C2 (witness): with the required count met (`QueryCount = 15`,
6 entries — skipped; and on the 6-entry dataset with a 5-count template
the full sample is returned).  Instantiates both branches at concrete
inputs. -/
theorem fixedCountSelection_spec_witness :
    fixedCountSelection config04 twoEntries [1, 0] = none ∧
    ∃ names, fixedCountSelection ⟨"03_fewer_items_5", 5, [], false, "", false, false, false,
        false, false, false, false⟩ sixEntries [5, 4, 3, 2, 1, 0] = some names ∧
      names.length = 5 := by
  constructor
  · exact (fixedCountSelection_spec config04 twoEntries [1, 0] (by decide) (by decide)).1
      (by decide)
  · have h := (fixedCountSelection_spec ⟨"03_fewer_items_5", 5, [], false, "", false, false,
      false, false, false, false, false⟩ sixEntries [5, 4, 3, 2, 1, 0] (by decide)
      (by decide)).2 (by decide)
    simpa using h

/-! ### C5 and C6: generator invariants -/

/-- Loop invariant of `genLoop`: if the accumulated entries have
pairwise-distinct names all recorded in `usedNames` and are well-formed
(city from the pool, job from the catalog, age in `[18, 90]`), the final
result keeps distinct names and well-formedness. -/
theorem genLoop_invariant (numEntries : Nat) (availableCities : List String)
    (hc : availableCities.length ≠ 0)
    (fake : Nat → Option (String × String)) (ageR cityR jobR : Nat → Nat) :
    ∀ (fuel attempts : Nat) (data : List PersonEntry) (usedNames : List String),
      (∀ e ∈ data, e.Name ∈ usedNames) →
      (data.map PersonEntry.Name).Nodup →
      (∀ e ∈ data, e.City ∈ availableCities ∧ e.JobTitle ∈ predefinedJobTitles ∧
        (MIN_AGE : Int) ≤ e.Age ∧ e.Age ≤ (MAX_AGE : Int)) →
      ((genLoop numEntries availableCities fake ageR cityR jobR fuel attempts
          data usedNames).map PersonEntry.Name).Nodup ∧
      (∀ e ∈ genLoop numEntries availableCities fake ageR cityR jobR fuel attempts
          data usedNames,
        e.City ∈ availableCities ∧ e.JobTitle ∈ predefinedJobTitles ∧
          (MIN_AGE : Int) ≤ e.Age ∧ e.Age ≤ (MAX_AGE : Int)) := by
  intro fuel
  induction fuel with
  | zero =>
    intro attempts data usedNames _ h2 h3
    exact ⟨h2, h3⟩
  | succ fuel ih =>
    intro attempts data usedNames h1 h2 h3
    simp only [genLoop]
    by_cases hlt : data.length < numEntries
    · rw [if_pos hlt]
      cases hfake : fake (attempts + 1) with
      | none => exact ih _ _ _ h1 h2 h3
      | some nm =>
        obtain ⟨firstName, lastName⟩ := nm
        dsimp only
        by_cases hmem : (firstName ++ " " ++ lastName) ∈ usedNames
        · rw [if_pos hmem]
          exact ih _ _ _ h1 h2 h3
        · rw [if_neg hmem]
          apply ih
          · intro e he
            rcases List.mem_append.mp he with h | h
            · exact List.mem_cons_of_mem _ (h1 e h)
            · simp only [List.mem_singleton] at h
              subst h
              exact List.mem_cons_self _ _
          · rw [List.map_append]
            refine List.Nodup.append h2 (by simp) ?_
            intro a ha hb
            simp only [List.map_cons, List.map_nil, List.mem_singleton] at hb
            subst hb
            obtain ⟨e, he, hname⟩ := List.mem_map.mp ha
            exact hmem (hname ▸ h1 e he)
          · intro e he
            rcases List.mem_append.mp he with h | h
            · exact h3 e h
            · simp only [List.mem_singleton] at h
              subst h
              refine ⟨getD_mod_mem availableCities _ hc, getD_mod_mem predefinedJobTitles _
                (by decide), ?_, ?_⟩
              · have hmod : ageR (attempts + 1) % (MAX_AGE - MIN_AGE + 1) <
                    MAX_AGE - MIN_AGE + 1 := Nat.mod_lt _ (by decide)
                simp only [MIN_AGE, MAX_AGE] at hmod ⊢
                omega
              · have hmod : ageR (attempts + 1) % (MAX_AGE - MIN_AGE + 1) <
                    MAX_AGE - MIN_AGE + 1 := Nat.mod_lt _ (by decide)
                simp only [MIN_AGE, MAX_AGE] at hmod ⊢
                omega
    · rw [if_neg hlt]
      exact ⟨h2, h3⟩

/-- C5: for every non-empty city pool, every count, every name source,
every random stream and every shuffle (any permutation-preserving
reordering), the entries returned by `generateRandomData` carry pairwise
distinct names, for every returned length, including under-target results
when the `count × 5` attempt bound runs out. -/
theorem generateRandomData_names_nodup (numEntries : Nat) (availableCities : List String)
    (fake : Nat → Option (String × String)) (ageR cityR jobR : Nat → Nat)
    (shuffle : List PersonEntry → List PersonEntry)
    (hc : availableCities ≠ [])
    (hs : ∀ l, (shuffle l).Perm l)
    (out : List PersonEntry)
    (hout : generateRandomData numEntries availableCities fake ageR cityR jobR shuffle =
      .ok out) :
    (out.map PersonEntry.Name).Nodup := by
  have hc' : availableCities.length ≠ 0 := by simpa using hc
  rw [generateRandomData, if_neg hc', if_neg (by decide)] at hout
  simp only [Except.ok.injEq] at hout
  subst hout
  have hinv := genLoop_invariant numEntries availableCities hc' fake ageR cityR jobR
    (numEntries * 5) 0 [] [] (by simp) (by simp) (by simp)
  have hperm := (hs (genLoop numEntries availableCities fake ageR cityR jobR
    (numEntries * 5) 0 [] [])).map PersonEntry.Name
  exact hperm.nodup_iff.mpr hinv.1

/-- C5 (witness): generating one entry from the pool `["Paris"]` with a
constant name source yields a single entry, whose name column is
trivially duplicate-free. -/
theorem generateRandomData_names_nodup_witness :
    generateRandomData 1 ["Paris"] (fun _ => some ("Ann", "Lee")) (fun _ => 0) (fun _ => 0)
        (fun _ => 0) id = .ok [⟨"Ann Lee", 18, "Paris", "Software Engineer"⟩] ∧
    (([⟨"Ann Lee", 18, "Paris", "Software Engineer"⟩] : List PersonEntry).map
        PersonEntry.Name).Nodup :=
  ⟨rfl, generateRandomData_names_nodup 1 ["Paris"] (fun _ => some ("Ann", "Lee")) (fun _ => 0)
    (fun _ => 0) (fun _ => 0) id (by decide) (fun l => List.Perm.refl l) _ rfl⟩

/-- C6: every entry returned by `generateRandomData` has its city drawn
from the given pool, its job title from the hard-coded catalog, and its
age in `[MIN_AGE, MAX_AGE] = [18, 90]`. -/
theorem generateRandomData_entry_ranges (numEntries : Nat) (availableCities : List String)
    (fake : Nat → Option (String × String)) (ageR cityR jobR : Nat → Nat)
    (shuffle : List PersonEntry → List PersonEntry)
    (hc : availableCities ≠ [])
    (hs : ∀ l, (shuffle l).Perm l)
    (out : List PersonEntry)
    (hout : generateRandomData numEntries availableCities fake ageR cityR jobR shuffle =
      .ok out) :
    ∀ e ∈ out, e.City ∈ availableCities ∧ e.JobTitle ∈ predefinedJobTitles ∧
      (MIN_AGE : Int) ≤ e.Age ∧ e.Age ≤ (MAX_AGE : Int) := by
  have hc' : availableCities.length ≠ 0 := by simpa using hc
  rw [generateRandomData, if_neg hc', if_neg (by decide)] at hout
  simp only [Except.ok.injEq] at hout
  subst hout
  have hinv := genLoop_invariant numEntries availableCities hc' fake ageR cityR jobR
    (numEntries * 5) 0 [] [] (by simp) (by simp) (by simp)
  intro e he
  exact hinv.2 e ((hs _).mem_iff.mp he)

/-- C6 (witness): the single generated entry of the concrete run has city
`"Paris"`, job title `"Software Engineer"` (catalog position 0), and age
`18`. -/
theorem generateRandomData_entry_ranges_witness :
    (⟨"Ann Lee", 18, "Paris", "Software Engineer"⟩ : PersonEntry).City ∈ ["Paris"] ∧
    (⟨"Ann Lee", 18, "Paris", "Software Engineer"⟩ : PersonEntry).JobTitle ∈
      predefinedJobTitles ∧
    (MIN_AGE : Int) ≤ (⟨"Ann Lee", 18, "Paris", "Software Engineer"⟩ : PersonEntry).Age ∧
    (⟨"Ann Lee", 18, "Paris", "Software Engineer"⟩ : PersonEntry).Age ≤ (MAX_AGE : Int) :=
  generateRandomData_entry_ranges 1 ["Paris"] (fun _ => some ("Ann", "Lee")) (fun _ => 0)
    (fun _ => 0) (fun _ => 0) id (by decide) (fun l => List.Perm.refl l) _ rfl
    ⟨"Ann Lee", 18, "Paris", "Software Engineer"⟩ (by decide)

/-! ### C7 and C8: the city fetch -/

/-- With a source that always fails at transport level and a positive
unique target, the loop keeps an empty collection and burns all its
remaining attempts. -/
theorem fetchLoop_all_error (resp : Nat → ApiResult) (targetUnique : Nat)
    (ht : 0 < targetUnique) (herr : ∀ i, resp i = .transportError) :
    ∀ fuel i, fetchLoop resp targetUnique fuel i [] = ([], i + fuel) := by
  intro fuel
  induction fuel with
  | zero => intro i; rfl
  | succ fuel ih =>
    intro i
    simp only [fetchLoop]
    rw [if_pos (by simpa using ht), herr i]
    dsimp only
    rw [ih (i + 1)]
    have hadd : i + 1 + fuel = i + (fuel + 1) := by omega
    rw [hadd]

/-- With a source that always returns the same non-empty city, a
collection already holding that city never grows, and the loop burns all
its remaining attempts while the unique target is unmet. -/
theorem fetchLoop_dup (resp : Nat → ApiResult) (targetUnique : Nat) (c : String)
    (hresp : ∀ i, resp i = .ok c) (ht : 2 ≤ targetUnique) :
    ∀ fuel i, fetchLoop resp targetUnique fuel i [c] = ([c], i + fuel) := by
  intro fuel
  induction fuel with
  | zero => intro i; rfl
  | succ fuel ih =>
    intro i
    simp only [fetchLoop]
    rw [if_pos (by simp; omega), hresp i]
    dsimp only
    rw [if_neg (by simp)]
    rw [ih (i + 1)]
    have hadd : i + 1 + fuel = i + (fuel + 1) := by omega
    rw [hadd]

/-- Structural bounds of the fetch loop: the collection stays
duplicate-free, holds no empty name, never exceeds the unique target, and
grows by at most one city per remaining attempt. -/
theorem fetchLoop_bounds (resp : Nat → ApiResult) (targetUnique : Nat) :
    ∀ (fuel i : Nat) (cities : List String), cities.Nodup → "" ∉ cities →
      cities.length ≤ targetUnique →
      ((fetchLoop resp targetUnique fuel i cities).1.Nodup ∧
        "" ∉ (fetchLoop resp targetUnique fuel i cities).1 ∧
        (fetchLoop resp targetUnique fuel i cities).1.length ≤ targetUnique ∧
        (fetchLoop resp targetUnique fuel i cities).1.length ≤ cities.length + fuel) := by
  intro fuel
  induction fuel with
  | zero =>
    intro i cities h1 h2 h3
    exact ⟨h1, h2, h3, by simp [fetchLoop]⟩
  | succ fuel ih =>
    intro i cities h1 h2 h3
    simp only [fetchLoop]
    by_cases hlt : cities.length < targetUnique
    · rw [if_pos hlt]
      cases hresp : resp i with
      | ok city =>
        dsimp only
        by_cases hnew : city ≠ "" ∧ city ∉ cities
        · rw [if_pos hnew]
          have hrec := ih (i + 1) (cities ++ [city])
            (by
              refine List.Nodup.append h1 (by simp) ?_
              intro a ha hb
              simp only [List.mem_singleton] at hb
              exact hnew.2 (hb ▸ ha))
            (by
              intro hmem
              rcases List.mem_append.mp hmem with h | h
              · exact h2 h
              · simp only [List.mem_singleton] at h
                exact hnew.1 h.symm)
            (by simp; omega)
          refine ⟨hrec.1, hrec.2.1, hrec.2.2.1, ?_⟩
          have := hrec.2.2.2
          simp only [List.length_append, List.length_singleton] at this
          omega
        · rw [if_neg hnew]
          have hrec := ih (i + 1) cities h1 h2 h3
          exact ⟨hrec.1, hrec.2.1, hrec.2.2.1, by omega⟩
      | transportError =>
        dsimp only
        have hrec := ih (i + 1) cities h1 h2 h3
        exact ⟨hrec.1, hrec.2.1, hrec.2.2.1, by omega⟩
      | badStatus =>
        dsimp only
        have hrec := ih (i + 1) cities h1 h2 h3
        exact ⟨hrec.1, hrec.2.1, hrec.2.2.1, by omega⟩
      | decodeError =>
        dsimp only
        have hrec := ih (i + 1) cities h1 h2 h3
        exact ⟨hrec.1, hrec.2.1, hrec.2.2.1, by omega⟩
    · rw [if_neg hlt]
      exact ⟨h1, h2, h3, by dsimp only; omega⟩

/-- With a source that, during the attempted window, always returns
valid, pairwise distinct, previously unseen city names, a loop that holds
the cities of the first `i` attempts and has enough fuel to reach the
unique target collects exactly the target's worth of cities and stops
right then. -/
theorem fetchLoop_fresh (resp : Nat → ApiResult) (targetUnique numToFetch : Nat)
    (f : Nat → String)
    (hresp : ∀ i, i < numToFetch → resp i = .ok (f i))
    (hne : ∀ i, i < numToFetch → f i ≠ "")
    (hinj : ∀ i j, i < numToFetch → j < numToFetch → f i = f j → i = j) :
    ∀ fuel i, i + fuel ≤ numToFetch → i ≤ targetUnique → targetUnique ≤ i + fuel →
      fetchLoop resp targetUnique fuel i ((List.range i).map f) =
        ((List.range targetUnique).map f, targetUnique) := by
  intro fuel
  induction fuel with
  | zero =>
    intro i hN hle hge
    have hi : i = targetUnique := by omega
    subst hi
    rfl
  | succ fuel ih =>
    intro i hN hle hge
    simp only [fetchLoop]
    by_cases heq : i = targetUnique
    · subst heq
      rw [if_neg (by simp)]
    · have hlt : i < targetUnique := by omega
      have hiN : i < numToFetch := by omega
      rw [if_pos (by simpa using hlt), hresp i hiN]
      dsimp only
      rw [if_pos ?cond]
      case cond =>
        refine ⟨hne i hiN, ?_⟩
        intro hmem
        obtain ⟨j, hj, hfj⟩ := List.mem_map.mp hmem
        have hjN : j < numToFetch := by
          simp only [List.mem_range] at hj
          omega
        have := hinj j i hjN hiN hfj
        simp only [List.mem_range] at hj
        omega
      have hstep : (List.range i).map f ++ [f i] = (List.range (i + 1)).map f := by
        rw [List.range_succ, List.map_append]
        rfl
      rw [hstep]
      exact ih (i + 1) (by omega) (by omega) (by omega)

/-- C7: the fetch fails if and only if the loop collected zero cities;
with an always-erroring source and a positive unique target it fails
after exactly `numToFetch` attempts; and with a source that repeats one
valid city forever (so attempts are exhausted with exactly one unique
city collected), it succeeds with that non-empty single-city result. -/
theorem fetchCitiesFromAPI_error_iff (numToFetch targetUnique : Nat)
    (resp : Nat → ApiResult) (ht : 0 < targetUnique) :
    ((∃ msg, fetchCitiesFromAPI numToFetch targetUnique resp = .error msg) ↔
      (fetchLoop resp targetUnique numToFetch 0 []).1 = []) ∧
    ((∀ i, resp i = .transportError) →
      fetchLoop resp targetUnique numToFetch 0 [] = ([], numToFetch) ∧
      fetchCitiesFromAPI numToFetch targetUnique resp =
        .error "failed to fetch any valid cities") ∧
    (∀ c, c ≠ "" → (∀ i, resp i = .ok c) → 2 ≤ targetUnique → 0 < numToFetch →
      fetchLoop resp targetUnique numToFetch 0 [] = ([c], numToFetch) ∧
      fetchCitiesFromAPI numToFetch targetUnique resp = .ok [c]) := by
  refine ⟨?_, ?_, ?_⟩
  · simp only [fetchCitiesFromAPI]
    by_cases hz : (fetchLoop resp targetUnique numToFetch 0 []).1 = []
    · simp [hz]
    · rw [if_neg (by simpa [List.length_eq_zero] using hz)]
      simp [hz]
  · intro herr
    have hloop := fetchLoop_all_error resp targetUnique ht herr numToFetch 0
    simp only [Nat.zero_add] at hloop
    refine ⟨hloop, ?_⟩
    simp [fetchCitiesFromAPI, hloop]
  · intro c hc hresp ht2 hM
    obtain ⟨m, rfl⟩ : ∃ m, numToFetch = m + 1 := ⟨numToFetch - 1, by omega⟩
    have hstep : fetchLoop resp targetUnique (m + 1) 0 [] =
        fetchLoop resp targetUnique m 1 [c] := by
      simp only [fetchLoop]
      rw [if_pos (by simp; omega), hresp 0]
      dsimp only
      rw [if_pos (by simpa using hc)]
      rfl
    have hloop := fetchLoop_dup resp targetUnique c hresp ht2 m 1
    have htotal : fetchLoop resp targetUnique (m + 1) 0 [] = ([c], m + 1) := by
      rw [hstep, hloop]
      congr 1
      omega
    refine ⟨htotal, ?_⟩
    simp [fetchCitiesFromAPI, htotal]

/-- C7 (witness): an always-erroring mock with `maxAttempts = 3` and
unique target 2 collects nothing, makes all 3 attempts and fails. -/
theorem fetchCitiesFromAPI_error_iff_witness :
    fetchLoop (fun _ => ApiResult.transportError) 2 3 0 [] = ([], 3) ∧
    fetchCitiesFromAPI 3 2 (fun _ => ApiResult.transportError) =
      .error "failed to fetch any valid cities" :=
  (fetchCitiesFromAPI_error_iff 3 2 (fun _ => ApiResult.transportError) (by decide)).2.1
    (fun _ => rfl)

/-- C8: for every response source the collected cities are pairwise
distinct and non-empty, and never more numerous than the unique target or
the attempt bound; and for a source yielding valid, pairwise distinct,
previously unseen cities on every attempt of the window, the loop stops
after exactly `targetUnique` attempts with exactly the first
`targetUnique` cities. -/
theorem fetchCities_unique_bounded (numToFetch targetUnique : Nat)
    (resp : Nat → ApiResult) :
    ((fetchLoop resp targetUnique numToFetch 0 []).1.Nodup ∧
      "" ∉ (fetchLoop resp targetUnique numToFetch 0 []).1 ∧
      (fetchLoop resp targetUnique numToFetch 0 []).1.length ≤ targetUnique ∧
      (fetchLoop resp targetUnique numToFetch 0 []).1.length ≤ numToFetch) ∧
    (∀ f : Nat → String,
      (∀ i, i < numToFetch → resp i = .ok (f i)) →
      (∀ i, i < numToFetch → f i ≠ "") →
      (∀ i j, i < numToFetch → j < numToFetch → f i = f j → i = j) →
      targetUnique ≤ numToFetch →
      fetchLoop resp targetUnique numToFetch 0 [] =
        ((List.range targetUnique).map f, targetUnique)) := by
  constructor
  · have h := fetchLoop_bounds resp targetUnique numToFetch 0 [] (by simp) (by simp) (by simp)
    exact ⟨h.1, h.2.1, h.2.2.1, by simpa using h.2.2.2⟩
  · intro f hresp hne hinj hT
    have h := fetchLoop_fresh resp targetUnique numToFetch f hresp hne hinj numToFetch 0
      (by omega) (by omega) (by omega)
    simpa using h

/-- C8 (witness): a mock serving the distinct cities `"A"`, `"B"`, `"C"`
with unique target 2 and 3 allowed attempts stops after exactly 2
attempts with `["A", "B"]`. -/
theorem fetchCities_unique_bounded_witness :
    fetchLoop (fun i => ApiResult.ok (["A", "B", "C"].getD i "")) 2 3 0 [] = (["A", "B"], 2) := by
  have h := (fetchCities_unique_bounded 3 2
    (fun i => ApiResult.ok (["A", "B", "C"].getD i ""))).2
    (fun i => ["A", "B", "C"].getD i "") (fun i _ => rfl)
    (by intro i hi; interval_cases i <;> decide)
    (by
      intro i j hi hj hf
      interval_cases i <;> interval_cases j <;> first | rfl | (revert hf; decide))
    (by omega)
  simpa using h

end GeneratePrompts
